import Mathlib

/-!
Shallow embedding of `http-request-to-ffuf.py` (HTTPRequest.parse_request,
FuzzerGenerator.find_param_location, FuzzerGenerator._find_json_param,
FuzzerGenerator.generate_ffuf_command) together with the Python library
functions the script calls (`str.strip`, `str.split`, `int`,
`urllib.parse.parse_qs`, `json.loads`).

Python strings are modelled as Lean `String`; machine-level details the
script never relies on (unicode whitespace classes beyond ASCII, multi-byte
UTF-8 percent-escapes, surrogate pairs in JSON `\u` escapes, non-ASCII
digits accepted by `int`) are modelled at the ASCII level, which is exact
for every string the claims touch.  A raised, uncaught Python exception is
modelled as `Option.none`.
-/

/-- ASCII whitespace stripped by Python `str.strip()`. -/
def pyWsChar (c : Char) : Bool :=
  c == ' ' || c == '\t' || c == '\n' || c == '\r' || c == '\x0b' || c == '\x0c'

/-- Python `str.strip()` (no argument): drop whitespace from both ends. -/
def pyStrip (s : String) : String :=
  String.mk (((s.data.dropWhile pyWsChar).reverse.dropWhile pyWsChar).reverse)

/-- Worker for `splitOnChar`; `cur` is the reversed current chunk. -/
def splitOnCharAux (c : Char) (cur : List Char) : List Char → List (List Char)
  | [] => [cur.reverse]
  | x :: xs =>
    if x == c then cur.reverse :: splitOnCharAux c [] xs
    else splitOnCharAux c (x :: cur) xs

/-- Python `s.split(c)` for a single-character separator (keeps empty chunks). -/
def splitOnChar (c : Char) (s : String) : List String :=
  (splitOnCharAux c [] s.data).map String.mk

/-- True when the character occurs in the string (Python `c in s`). -/
def strHasChar (s : String) (c : Char) : Bool :=
  s.data.any (fun x => x == c)

/-- Characters before the first occurrence of `c` (whole string if absent):
Python `s.split(c, 1)[0]` / `s.split(c)[0]`. -/
def beforeFirstAux (c : Char) : List Char → List Char
  | [] => []
  | x :: xs => if x == c then [] else x :: beforeFirstAux c xs

/-- Characters after the first occurrence of `c` (empty if absent); the
script only uses this under a `c in s` guard, matching Python
`s.split(c, 1)[1]`. -/
def afterFirstAux (c : Char) : List Char → List Char
  | [] => []
  | x :: xs => if x == c then xs else afterFirstAux c xs

/-- String version of `beforeFirstAux`. -/
def beforeFirst (s : String) (c : Char) : String :=
  String.mk (beforeFirstAux c s.data)

/-- String version of `afterFirstAux`. -/
def afterFirst (s : String) (c : Char) : String :=
  String.mk (afterFirstAux c s.data)

/-- Substring test, Python `pat in hay` on strings. -/
def listPrefixTest : List Char → List Char → Bool
  | [], _ => true
  | _ :: _, [] => false
  | p :: ps, x :: xs => p == x && listPrefixTest ps xs

/-- Worker for `strContains`. -/
def listInfixTest : List Char → List Char → Bool
  | pat, [] => pat.isEmpty
  | pat, x :: xs => listPrefixTest pat (x :: xs) || listInfixTest pat xs

/-- Python `pat in hay` (case-sensitive substring search). -/
def strContains (hay pat : String) : Bool :=
  listInfixTest pat.data hay.data

/-- Python `dict` update `m[k] = v`: overwrite in place if the key exists
(keeping its original position), otherwise append. -/
def upsert {α : Type} (m : List (String × α)) (k : String) (v : α) :
    List (String × α) :=
  if m.any (fun e => e.1 == k) then
    m.map (fun e => if e.1 == k then (k, v) else e)
  else m ++ [(k, v)]

/-- Python `m.get(k)` / `m[k]` lookup on the ordered-dict model. -/
def dictFind (m : List (String × String)) (k : String) : Option String :=
  (m.find? (fun e => e.1 == k)).map (fun e => e.2)

/-- Python `k in m` on the ordered-dict model. -/
def dictMem (m : List (String × String)) (k : String) : Bool :=
  m.any (fun e => e.1 == k)

/-- Hexadecimal digit value, if any. -/
def hexVal? (c : Char) : Option Nat :=
  if c.isDigit then some (c.toNat - 48)
  else if 'a' ≤ c && c ≤ 'f' then some (c.toNat - 87)
  else if 'A' ≤ c && c ≤ 'F' then some (c.toNat - 55)
  else Option.none

/-- Percent-decoding as in `urllib.parse.unquote`: a `%` followed by two hex
digits becomes the byte value (ASCII-exact; multi-byte UTF-8 sequences are
not reassembled), anything else is copied through. -/
def pyUnquoteAux : List Char → List Char
  | [] => []
  | '%' :: a :: b :: r2 =>
    match hexVal? a, hexVal? b with
    | some x, some y => Char.ofNat (16 * x + y) :: pyUnquoteAux r2
    | _, _ => '%' :: pyUnquoteAux (a :: b :: r2)
  | c :: rest => c :: pyUnquoteAux rest

/-- `urllib.parse.unquote_plus`: `+` becomes a space, then percent-decode. -/
def decodeComponent (s : String) : String :=
  String.mk (pyUnquoteAux (s.data.map (fun c => if c == '+' then ' ' else c)))

/-- One segment of a query string as seen by `urllib.parse.parse_qsl` with
default arguments: empty segments, segments without `=`, and segments whose
value is empty are all dropped; kept pairs are URL-decoded. -/
def qsPair (seg : String) : Option (String × String) :=
  if seg == "" then Option.none
  else if strHasChar seg '=' then
    if afterFirst seg '=' == "" then Option.none
    else some (decodeComponent (beforeFirst seg '='),
               decodeComponent (afterFirst seg '='))
  else Option.none

/-- The `&`-separated segments `parse_qsl` iterates over. -/
def qsSegments (q : String) : List String :=
  if q == "" then [] else splitOnChar '&' q

/-- `urllib.parse.parse_qsl(q)` with default arguments. -/
def parse_qsl (q : String) : List (String × String) :=
  (qsSegments q).filterMap qsPair

/-- Key membership in `urllib.parse.parse_qs(q)` (the script only tests
`param in params`). -/
def qsHasKey (q p : String) : Bool :=
  (parse_qsl q).any (fun kv => kv.1 == p)

/-- Digit-run parser for Python `int`: digits with single underscores
allowed only between digits. -/
def pyDigitsAux : List Char → Nat → Bool → Option Nat
  | [], _, false => Option.none
  | [], acc, true => some acc
  | c :: cs, acc, last =>
    if c.isDigit then pyDigitsAux cs (acc * 10 + (c.toNat - 48)) true
    else if c == '_' then (if last then pyDigitsAux cs acc false else Option.none)
    else Option.none

/-- Python `int(s)`: strip whitespace, optional sign, ASCII digit run;
`Option.none` models the `ValueError` it raises otherwise. -/
def pyInt? (s : String) : Option Int :=
  match (pyStrip s).data with
  | '+' :: rest => (pyDigitsAux rest 0 false).map (fun n => (n : Int))
  | '-' :: rest => (pyDigitsAux rest 0 false).map (fun n => -(n : Int))
  | l => (pyDigitsAux l 0 false).map (fun n => (n : Int))

/-- The parsed-request record built by `HTTPRequest.parse_request`; fields
mirror the attributes set in `HTTPRequest.__init__`. -/
structure ParsedRequest where
  method : String
  path : String
  protocol : String
  headers : List (String × String)
  body : String
  host : String
  port : Option Int
  url : String
  content_type : String
  is_json : Bool
  is_form : Bool
  is_multipart : Bool
deriving DecidableEq, Repr

/-- Lines of the request: `request_text.strip().split('\n')`. -/
def requestLines (s : String) : List String :=
  splitOnChar '\n' (pyStrip s)

/-- The header-parsing loop of `parse_request` (lines 64-73): walks the
lines after the request line, stopping at the first blank line; returns the
headers dict and `body_start` (0 when no blank line was found). -/
def headerLoop : List String → Nat → List (String × String) →
    List (String × String) × Nat
  | [], _, hs => (hs, 0)
  | line :: rest, i, hs =>
    let l := pyStrip line
    if l == "" then (hs, i + 1)
    else if strHasChar l ':' then
      headerLoop rest (i + 1)
        (upsert hs (pyStrip (beforeFirst l ':')) (pyStrip (afterFirst l ':')))
    else headerLoop rest (i + 1) hs

/-- Headers and `body_start` computed by `parse_request` for a raw text. -/
def requestHeaderPair (s : String) : List (String × String) × Nat :=
  headerLoop ((requestLines s).drop 1) 1 []

/-- The `Host` header split of lines 78-81: on `:` in the value, the part
before the first `:` is the host and `int()` of the part between the first
and second `:` is the port; `Option.none` models the uncaught `ValueError`
when that part is not an integer literal. -/
def hostPort (hv : String) : Option (String × Option Int) :=
  if strHasChar hv ':' then
    match pyInt? (beforeFirst (afterFirst hv ':') ':') with
    | some n => some (beforeFirst hv ':', some n)
    | Option.none => Option.none
  else some (hv, Option.none)

/-- URL construction of lines 83-86: scheme is `https` exactly when the
port is 443, and the `:port` suffix is added only when the port is truthy
(present and non-zero) and not 80 or 443. -/
def urlOf (po : Option Int) (host pth : String) : String :=
  (if po = some 443 then "https" else "http") ++ "://" ++ host ++
    (match po with
     | some n => if n ≠ 0 ∧ n ≠ 80 ∧ n ≠ 443 then ":" ++ toString n else ""
     | Option.none => "") ++ pth

/-- `HTTPRequest.parse_request` (lines 51-97).  `Option.none` models an
exception escaping the method (only the `int()` of a Host port can raise). -/
def parse_request (request_text : String) : Option ParsedRequest :=
  let lines := requestLines request_text
  let parts := splitOnChar ' ' (pyStrip (lines.headD ""))
  let meth := if parts.length ≥ 3 then parts.getD 0 "" else ""
  let pth := if parts.length ≥ 3 then parts.getD 1 "" else ""
  let prot := if parts.length ≥ 3 then parts.getD 2 "" else ""
  let hp := requestHeaderPair request_text
  let body :=
    if 0 < hp.2 ∧ hp.2 < lines.length then
      String.intercalate "\n" (lines.drop hp.2)
    else ""
  let ctOpt := dictFind hp.1 "Content-Type"
  let ctv := ctOpt.getD ""
  let isj := match ctOpt with
    | some v => strContains v "application/json"
    | Option.none => false
  let isf := match ctOpt with
    | some v => strContains v "application/x-www-form-urlencoded"
    | Option.none => false
  let ism := match ctOpt with
    | some v => strContains v "multipart/form-data"
    | Option.none => false
  match dictFind hp.1 "Host" with
  | Option.none =>
    some { method := meth, path := pth, protocol := prot, headers := hp.1,
           body := body, host := "", port := Option.none, url := "",
           content_type := ctv, is_json := isj, is_form := isf,
           is_multipart := ism }
  | some hv =>
    match hostPort hv with
    | Option.none => Option.none
    | some hpo =>
      some { method := meth, path := pth, protocol := prot, headers := hp.1,
             body := body, host := hpo.1, port := hpo.2,
             url := urlOf hpo.2 hpo.1 pth, content_type := ctv,
             is_json := isj, is_form := isf, is_multipart := ism }

/-- JSON documents as produced by `json.loads` (numbers kept as their
source token, which the script never inspects). -/
inductive JsonVal where
  | null : JsonVal
  | bool : Bool → JsonVal
  | num : String → JsonVal
  | str : String → JsonVal
  | arr : List JsonVal → JsonVal
  | obj : List (String × JsonVal) → JsonVal

/-- JSON whitespace (`json.decoder.WHITESPACE`). -/
def jsonWs (c : Char) : Bool :=
  c == ' ' || c == '\t' || c == '\n' || c == '\r'

/-- JSON string body after the opening quote, with the standard escapes;
`acc` is the reversed output.  Unescaped control characters are rejected as
in Python's strict mode. -/
def jsonStrAux : List Char → List Char → Option (String × List Char)
  | _, [] => Option.none
  | acc, c :: rest =>
    if c == '"' then some (String.mk acc.reverse, rest)
    else if c == '\\' then
      match rest with
      | [] => Option.none
      | e :: r2 =>
        if e == '"' then jsonStrAux ('"' :: acc) r2
        else if e == '\\' then jsonStrAux ('\\' :: acc) r2
        else if e == '/' then jsonStrAux ('/' :: acc) r2
        else if e == 'b' then jsonStrAux ('\x08' :: acc) r2
        else if e == 'f' then jsonStrAux ('\x0c' :: acc) r2
        else if e == 'n' then jsonStrAux ('\n' :: acc) r2
        else if e == 'r' then jsonStrAux ('\r' :: acc) r2
        else if e == 't' then jsonStrAux ('\t' :: acc) r2
        else if e == 'u' then
          match r2 with
          | h1 :: h2 :: h3 :: h4 :: r3 =>
            match hexVal? h1, hexVal? h2, hexVal? h3, hexVal? h4 with
            | some a, some b, some c2, some d =>
              jsonStrAux (Char.ofNat (4096 * a + 256 * b + 16 * c2 + d) :: acc) r3
            | _, _, _, _ => Option.none
          | _ => Option.none
        else Option.none
    else if c.toNat < 32 then Option.none
    else jsonStrAux (c :: acc) rest

/-- Longest digit run at the head of the list. -/
def digitSpan : List Char → List Char × List Char
  | [] => ([], [])
  | c :: cs =>
    if c.isDigit then
      let r := digitSpan cs
      (c :: r.1, r.2)
    else ([], c :: cs)

/-- Optional exponent part of a JSON number. -/
def jsonNumExp (pre : List Char) (cs : List Char) : Option (String × List Char) :=
  match cs with
  | e :: r =>
    if e == 'e' || e == 'E' then
      let sr : List Char × List Char :=
        match r with
        | '+' :: r2 => (['+'], r2)
        | '-' :: r2 => (['-'], r2)
        | _ => ([], r)
      match digitSpan sr.2 with
      | ([], _) => Option.none
      | (ds, r2) => some (String.mk (pre ++ [e] ++ sr.1 ++ ds), r2)
    else some (String.mk pre, cs)
  | [] => some (String.mk pre, [])

/-- Optional fraction part of a JSON number, then exponent. -/
def jsonNumFrac (intpart : List Char) (cs : List Char) :
    Option (String × List Char) :=
  match cs with
  | '.' :: r =>
    match digitSpan r with
    | ([], _) => Option.none
    | (ds, r2) => jsonNumExp (intpart ++ ['.'] ++ ds) r2
  | _ => jsonNumExp intpart cs

/-- JSON number token: `-?(0|[1-9][0-9]*)(\.[0-9]+)?([eE][-+]?[0-9]+)?`. -/
def jsonNum (cs : List Char) : Option (String × List Char) :=
  let sp : List Char × List Char :=
    match cs with
    | '-' :: r => (['-'], r)
    | _ => ([], cs)
  match sp.2 with
  | [] => Option.none
  | c :: r =>
    if c == '0' then jsonNumFrac (sp.1 ++ ['0']) r
    else if c.isDigit then
      let d := digitSpan (c :: r)
      jsonNumFrac (sp.1 ++ d.1) d.2
    else Option.none

/-- Parsing mode of the defunctionalised `json.loads` scanner: a single
value, the members of an object being accumulated, or the elements of an
array being accumulated. -/
inductive JMode where
  | value : JMode
  | members : List (String × JsonVal) → JMode
  | elems : List JsonVal → JMode

/-- Recursive-descent scanner for `json.loads`.  The fuel only bounds the
recursion depth; every recursive call consumes input, so any fuel larger
than twice the input length never runs out. -/
def jsonP : Nat → JMode → List Char → Option (JsonVal × List Char)
  | 0, _, _ => Option.none
  | Nat.succ fuel, JMode.value, cs0 =>
    let cs := cs0.dropWhile jsonWs
    match cs with
    | 't' :: 'r' :: 'u' :: 'e' :: rest => some (JsonVal.bool true, rest)
    | 'f' :: 'a' :: 'l' :: 's' :: 'e' :: rest => some (JsonVal.bool false, rest)
    | 'n' :: 'u' :: 'l' :: 'l' :: rest => some (JsonVal.null, rest)
    | 'N' :: 'a' :: 'N' :: rest => some (JsonVal.num "NaN", rest)
    | 'I' :: 'n' :: 'f' :: 'i' :: 'n' :: 'i' :: 't' :: 'y' :: rest =>
      some (JsonVal.num "Infinity", rest)
    | '-' :: 'I' :: 'n' :: 'f' :: 'i' :: 'n' :: 'i' :: 't' :: 'y' :: rest =>
      some (JsonVal.num "-Infinity", rest)
    | '"' :: rest => (jsonStrAux [] rest).map (fun sr => (JsonVal.str sr.1, sr.2))
    | '\x7b' :: rest =>
      let r1 := rest.dropWhile jsonWs
      match r1 with
      | '\x7d' :: r2 => some (JsonVal.obj [], r2)
      | _ => jsonP fuel (JMode.members []) r1
    | '[' :: rest =>
      let r1 := rest.dropWhile jsonWs
      match r1 with
      | ']' :: r2 => some (JsonVal.arr [], r2)
      | _ => jsonP fuel (JMode.elems []) r1
    | _ => (jsonNum cs).map (fun sr => (JsonVal.num sr.1, sr.2))
  | Nat.succ fuel, JMode.members acc, cs0 =>
    let cs := cs0.dropWhile jsonWs
    match cs with
    | '"' :: rest =>
      match jsonStrAux [] rest with
      | some kr =>
        match kr.2.dropWhile jsonWs with
        | ':' :: r3 =>
          match jsonP fuel JMode.value r3 with
          | some vr =>
            let acc2 := upsert acc kr.1 vr.1
            match vr.2.dropWhile jsonWs with
            | ',' :: r5 => jsonP fuel (JMode.members acc2) r5
            | '\x7d' :: r5 => some (JsonVal.obj acc2, r5)
            | _ => Option.none
          | Option.none => Option.none
        | _ => Option.none
      | Option.none => Option.none
    | _ => Option.none
  | Nat.succ fuel, JMode.elems acc, cs0 =>
    match jsonP fuel JMode.value cs0 with
    | some vr =>
      match vr.2.dropWhile jsonWs with
      | ',' :: r2 => jsonP fuel (JMode.elems (acc ++ [vr.1])) r2
      | ']' :: r2 => some (JsonVal.arr (acc ++ [vr.1]), r2)
      | _ => Option.none
    | Option.none => Option.none

/-- `json.loads(s)`: parse one value and require only whitespace after it;
`Option.none` models `json.JSONDecodeError`. -/
def jsonLoads (s : String) : Option JsonVal :=
  match jsonP (2 * s.data.length + 8) JMode.value s.data with
  | some vr => if (vr.2.dropWhile jsonWs).isEmpty then some vr.1 else Option.none
  | Option.none => Option.none

/-- Search mode of the defunctionalised `_find_json_param`: one value, the
remaining entries of an object, or the remaining items of an array with the
next index. -/
inductive FJMode where
  | one : JsonVal → String → FJMode
  | inObj : List (String × JsonVal) → String → FJMode
  | inArr : List JsonVal → String → Nat → FJMode

/-- `FuzzerGenerator._find_json_param` (lines 152-169): depth-first search
for a key equal to `p`, keys before values, object keys in insertion order,
array items in index order, recording the dotted/bracketed path.  The fuel
only bounds recursion depth and is chosen large enough by the caller. -/
def findJP : Nat → FJMode → String → Option String
  | 0, _, _ => Option.none
  | Nat.succ fuel, FJMode.one v path, p =>
    match v with
    | JsonVal.obj kvs => findJP fuel (FJMode.inObj kvs path) p
    | JsonVal.arr xs => findJP fuel (FJMode.inArr xs path 0) p
    | _ => Option.none
  | Nat.succ fuel, FJMode.inObj kvs path, p =>
    match kvs with
    | [] => Option.none
    | (k, v) :: rest =>
      let np := if path == "" then k else path ++ "." ++ k
      if k == p then some np
      else
        match v with
        | JsonVal.obj _ =>
          (match findJP fuel (FJMode.one v np) p with
           | some r => some r
           | Option.none => findJP fuel (FJMode.inObj rest path) p)
        | JsonVal.arr _ =>
          (match findJP fuel (FJMode.one v np) p with
           | some r => some r
           | Option.none => findJP fuel (FJMode.inObj rest path) p)
        | _ => findJP fuel (FJMode.inObj rest path) p
  | Nat.succ fuel, FJMode.inArr xs path i, p =>
    match xs with
    | [] => Option.none
    | item :: rest =>
      let np := path ++ "[" ++ toString i ++ "]"
      match item with
      | JsonVal.obj _ =>
        (match findJP fuel (FJMode.one item np) p with
         | some r => some r
         | Option.none => findJP fuel (FJMode.inArr rest path (i + 1)) p)
      | JsonVal.arr _ =>
        (match findJP fuel (FJMode.one item np) p with
         | some r => some r
         | Option.none => findJP fuel (FJMode.inArr rest path (i + 1)) p)
      | _ => findJP fuel (FJMode.inArr rest path (i + 1)) p

/-- Fuel bound for `findJP` on a value parsed from `body`: a parsed value
has at most `body.length` nodes, and the search makes at most four calls
per node. -/
def jsonFuzzFuel (body : String) : Nat :=
  4 * body.data.length + 8

/-- Resolution result of `find_param_location`, the spec's `FuzzTarget`:
the `json_field` tag carries the recorded `fuzz_position` path. -/
inductive FuzzLoc where
  | url_param : FuzzLoc
  | body_param : FuzzLoc
  | json_field : String → FuzzLoc
  | header : FuzzLoc
  | cookie : FuzzLoc
deriving DecidableEq, Repr

/-- The cookie-scanning loop of `find_param_location` (lines 142-148):
first segment containing `=` whose stripped name equals the parameter. -/
def cookieLoop (p : String) : List String → Bool
  | [] => false
  | ck :: rest =>
    if strHasChar ck '=' then
      if pyStrip (beforeFirst ck '=') == p then true else cookieLoop p rest
    else cookieLoop p rest

/-- Locations searched after the JSON block of `find_param_location`
(lines 135-150): headers by exact name, then cookie segments. -/
def findTail (req : ParsedRequest) (p : String) : Option FuzzLoc :=
  if dictMem req.headers p then some FuzzLoc.header
  else
    match dictFind req.headers "Cookie" with
    | some cv =>
      if cookieLoop p (splitOnChar ';' cv) then some FuzzLoc.cookie
      else Option.none
    | Option.none => Option.none

/-- `FuzzerGenerator.find_param_location` (lines 107-150), returning the
location tag (with the JSON path) instead of mutating generator state;
`Option.none` is the `return False` case. -/
def find_param_location (req : ParsedRequest) (p : String) : Option FuzzLoc :=
  if strHasChar req.path '?' && qsHasKey (afterFirst req.path '?') p then
    some FuzzLoc.url_param
  else if req.is_form && !(req.body == "") && qsHasKey req.body p then
    some FuzzLoc.body_param
  else if req.is_json && !(req.body == "") then
    match jsonLoads req.body with
    | some jv =>
      match findJP (jsonFuzzFuel req.body) (FJMode.one jv "") p with
      | some pos => some (FuzzLoc.json_field pos)
      | Option.none => findTail req p
    | Option.none => findTail req p
  else findTail req p

/-- Query rewriting shared by the url-param branch of
`generate_ffuf_command` (lines 186-194) and the dead form-body computation
(lines 228-237): re-split the raw string on `&` and replace the value of
each `name=value` segment whose raw name equals the target with `FUZZ`. -/
def fuzzSegments (s p : String) : List String :=
  (splitOnChar '&' s).map (fun prm =>
    if strHasChar prm '=' then
      (if beforeFirst prm '=' == p then beforeFirst prm '=' ++ "=FUZZ" else prm)
    else prm)

/-- The `-u` flag of `generate_ffuf_command` (lines 182-201).  In the
url-param branch the code unpacks `path.split('?', 1)` into two names,
which raises `ValueError` (modelled as `Option.none`) if the path has no
`?`; that cannot happen when the location came from the resolver. -/
def urlFlag (req : ParsedRequest) (p : String) (fl : FuzzLoc) : Option String :=
  match fl with
  | FuzzLoc.url_param =>
    if strHasChar req.path '?' then
      some ("-u \"" ++ beforeFirst req.url '?' ++ beforeFirst req.path '?' ++ "?" ++
        String.intercalate "&" (fuzzSegments (afterFirst req.path '?') p) ++ "\"")
    else Option.none
  | _ => some ("-u \"" ++ req.url ++ "\"")

/-- Cookie-header rewriting of `generate_ffuf_command` (lines 209-220):
split on `;`, replace the value of the segment whose stripped name equals
the target with `FUZZ`, strip the other segments, rejoin with `; `. -/
def rebuildCookieValue (value p : String) : String :=
  String.intercalate "; " ((splitOnChar ';' value).map (fun ck =>
    if strHasChar ck '=' then
      (if pyStrip (beforeFirst ck '=') == p then
        pyStrip (beforeFirst ck '=') ++ "=FUZZ"
      else pyStrip ck)
    else pyStrip ck))

/-- One `-H` flag of `generate_ffuf_command` (lines 204-222). -/
def headerFlag (p : String) (fl : FuzzLoc) (nv : String × String) : String :=
  if fl = FuzzLoc.header ∧ nv.1 = p then "-H \"" ++ nv.1 ++ ": FUZZ\""
  else if fl = FuzzLoc.cookie ∧ nv.1 = "Cookie" then
    "-H \"Cookie: " ++ rebuildCookieValue nv.2 p ++ "\""
  else "-H \"" ++ nv.1 ++ ": " ++ nv.2 ++ "\""

/-- Body flags of `generate_ffuf_command` (lines 225-247).  In the
form-body branch the substituted segments (`fuzzSegments req.body p`) are
computed by the code but never used: the emitted `-d` payload is the
original body. -/
def bodyFlags (req : ParsedRequest) (fl : FuzzLoc) : List String :=
  if !(req.body == "") &&
      (req.method == "POST" || req.method == "PUT" || req.method == "PATCH") then
    match fl with
    | FuzzLoc.body_param =>
      if req.is_form then ["-d \"" ++ req.body ++ "\""]
      else ["-d '" ++ req.body ++ "'"]
    | FuzzLoc.json_field pos =>
      if req.is_json then
        ["-d '" ++ req.body ++ "'", "-mode pitchfork", "-json '" ++ pos ++ ":FUZZ'"]
      else ["-d '" ++ req.body ++ "'"]
    | _ => ["-d '" ++ req.body ++ "'"]
  else []

/-- `FuzzerGenerator.generate_ffuf_command` (lines 171-249): `Option.none`
models the `ValueError` raised when no location was resolved (or when the
url-param branch unpacks a `?`-free path). -/
def generate_ffuf_command (req : ParsedRequest) (p w : String)
    (loc : Option FuzzLoc) : Option String :=
  match loc with
  | Option.none => Option.none
  | some fl =>
    match urlFlag req p fl with
    | Option.none => Option.none
    | some uf =>
      some (String.intercalate " "
        (("ffuf -w " ++ w) :: ("-X " ++ req.method) :: uf ::
          (req.headers.map (headerFlag p fl) ++ bodyFlags req fl)))

/-- Spec-side location 1 (claim C1): the parameter is a decoded key of the
URL query string. -/
def locUrlQuery (req : ParsedRequest) (p : String) : Bool :=
  strHasChar req.path '?' && qsHasKey (afterFirst req.path '?') p

/-- Spec-side location 2 (claim C1): form-urlencoded content type,
non-empty body, and the parameter is a decoded key of the body. -/
def locForm (req : ParsedRequest) (p : String) : Bool :=
  req.is_form && !(req.body == "") && qsHasKey req.body p

/-- Spec-side location 3 (claim C1): JSON content type, non-empty body
that parses as JSON, and a depth-first key match with its recorded path. -/
def locJson (req : ParsedRequest) (p : String) : Option String :=
  if req.is_json && !(req.body == "") then
    (jsonLoads req.body).bind
      (fun jv => findJP (jsonFuzzFuel req.body) (FJMode.one jv "") p)
  else Option.none

/-- Spec-side location 4 (claim C1): the parameter is literally a header
name. -/
def locHeader (req : ParsedRequest) (p : String) : Bool :=
  dictMem req.headers p

/-- Spec-side location 5 (claim C1): some `;`-segment of the `Cookie`
header has `=` and its stripped name equals the parameter. -/
def locCookie (req : ParsedRequest) (p : String) : Bool :=
  match dictFind req.headers "Cookie" with
  | some cv =>
    (splitOnChar ';' cv).any
      (fun ck => strHasChar ck '=' && (pyStrip (beforeFirst ck '=') == p))
  | Option.none => false

/-- The resolver as the spec states it: the five location tests in fixed
priority order, first match determining the tag. -/
def resolveSpec (req : ParsedRequest) (p : String) : Option FuzzLoc :=
  if locUrlQuery req p then some FuzzLoc.url_param
  else if locForm req p then some FuzzLoc.body_param
  else
    match locJson req p with
    | some pos => some (FuzzLoc.json_field pos)
    | Option.none =>
      if locHeader req p then some FuzzLoc.header
      else if locCookie req p then some FuzzLoc.cookie
      else Option.none

/-- Closed set of content-type classes named by the spec. -/
inductive CTClass where
  | noHeader : CTClass
  | json : CTClass
  | form : CTClass
  | multipart : CTClass
  | other : CTClass
deriving DecidableEq, Repr

/-- Content-type classification as the spec states it: case-sensitive
substring search for the three media types in priority order, first match
wins; `other` when the header exists but none match, `noHeader` when the
header is absent. -/
def specContentTypeClass : Option String → CTClass
  | Option.none => CTClass.noHeader
  | some v =>
    if strContains v "application/json" then CTClass.json
    else if strContains v "application/x-www-form-urlencoded" then CTClass.form
    else if strContains v "multipart/form-data" then CTClass.multipart
    else CTClass.other

/-- The `(is_json, is_form, is_multipart)` flag triple a single closed
class would induce. -/
def ctClassFlags : CTClass → Bool × Bool × Bool
  | CTClass.json => (true, false, false)
  | CTClass.form => (false, true, false)
  | CTClass.multipart => (false, false, true)
  | _ => (false, false, false)

/-- At most one of the three media-type substrings occurs in the
Content-Type value (vacuously true when the header is absent). -/
def ctAtMostOne : Option String → Bool
  | Option.none => true
  | some v =>
    !(strContains v "application/json" &&
      strContains v "application/x-www-form-urlencoded") &&
    !(strContains v "application/json" && strContains v "multipart/form-data") &&
    !(strContains v "application/x-www-form-urlencoded" &&
      strContains v "multipart/form-data")

/-- Host-header port guard: true exactly when `parse_request` reaches the
end of the method without the `int()` of a port suffix raising. -/
def hostPortOk (s : String) : Bool :=
  match dictFind (requestHeaderPair s).1 "Host" with
  | Option.none => true
  | some hv => (hostPort hv).isSome

/-- Raw text of the spec's JSON test request. -/
def jsonReqText : String :=
  "POST /api HTTP/1.1\nHost: example.com\nContent-Type: application/json\n\n\x7b\"user\":\x7b\"id\":42\x7d\x7d"

/-- The parsed form of `jsonReqText`. -/
def jsonReq : ParsedRequest :=
  { method := "POST", path := "/api", protocol := "HTTP/1.1",
    headers := [("Host", "example.com"), ("Content-Type", "application/json")],
    body := "\x7b\"user\":\x7b\"id\":42\x7d\x7d", host := "example.com",
    port := Option.none, url := "http://example.com/api",
    content_type := "application/json", is_json := true, is_form := false,
    is_multipart := false }

/-- The parsed form of the spec's cookie test request. -/
def cookieReq : ParsedRequest :=
  { method := "GET", path := "/home", protocol := "HTTP/1.1",
    headers := [("Host", "e.com"), ("Cookie", "session=abc123; theme=dark")],
    body := "", host := "e.com", port := Option.none,
    url := "http://e.com/home", content_type := "", is_json := false,
    is_form := false, is_multipart := false }

/-- A parsed form-urlencoded POST request. -/
def formReq : ParsedRequest :=
  { method := "POST", path := "/login", protocol := "HTTP/1.1",
    headers := [("Host", "e.com"),
                ("Content-Type", "application/x-www-form-urlencoded")],
    body := "user=a&pass=b", host := "e.com", port := Option.none,
    url := "http://e.com/login",
    content_type := "application/x-www-form-urlencoded", is_json := false,
    is_form := true, is_multipart := false }

/-- The parsed form of the spec's URL-query test request. -/
def urlReq : ParsedRequest :=
  { method := "GET", path := "/search?q=test&id=5", protocol := "HTTP/1.1",
    headers := [("Host", "example.com")], body := "", host := "example.com",
    port := Option.none, url := "http://example.com/search?q=test&id=5",
    content_type := "", is_json := false, is_form := false,
    is_multipart := false }

/-- A parsed request on a non-standard port. -/
def altPortReq : ParsedRequest :=
  { method := "GET", path := "/admin", protocol := "HTTP/1.1",
    headers := [("Host", "example.com:8443")], body := "",
    host := "example.com", port := some 8443,
    url := "http://example.com:8443/admin", content_type := "",
    is_json := false, is_form := false, is_multipart := false }

/-- A parsed request whose JSON body does not parse. -/
def badJsonReq : ParsedRequest :=
  { method := "POST", path := "/submit", protocol := "HTTP/1.1",
    headers := [("Host", "example.com"), ("Content-Type", "application/json")],
    body := "\x7bnot valid json", host := "example.com", port := Option.none,
    url := "http://example.com/submit", content_type := "application/json",
    is_json := true, is_form := false, is_multipart := false }

/-- A parsed request whose query string carries `p` with a blank value. -/
def blankQueryReq : ParsedRequest :=
  { method := "GET", path := "/a?p=&q=1", protocol := "HTTP/1.1",
    headers := [("Host", "e.com")], body := "", host := "e.com",
    port := Option.none, url := "http://e.com/a?p=&q=1", content_type := "",
    is_json := false, is_form := false, is_multipart := false }

/-- A Content-Type value containing two of the three classified substrings. -/
def ctOverlapVal : String :=
  "application/json application/x-www-form-urlencoded"

/-- Raw request carrying `ctOverlapVal` as its Content-Type. -/
def ctOverlapText : String :=
  "POST /a HTTP/1.1\nHost: e.com\nContent-Type: " ++ ctOverlapVal

theorem cookieLoop_eq_any (p : String) (l : List String) :
    cookieLoop p l =
      l.any (fun ck => strHasChar ck '=' && (pyStrip (beforeFirst ck '=') == p)) := by
  induction l with
  | nil => rfl
  | cons ck rest ih =>
    simp only [cookieLoop, List.any_cons]
    cases h1 : strHasChar ck '=' <;>
      cases h2 : (pyStrip (beforeFirst ck '=') == p) <;> simp [h1, h2, ih]

theorem findLoc_spec_eq (req : ParsedRequest) (p : String) :
    find_param_location req p = resolveSpec req p := by
  have htail : findTail req p =
      (if locHeader req p then some FuzzLoc.header
       else if locCookie req p then some FuzzLoc.cookie else Option.none) := by
    unfold findTail locHeader locCookie
    cases hm : dictMem req.headers p
    · cases hck : dictFind req.headers "Cookie" <;>
        simp [hm, hck, cookieLoop_eq_any]
    · simp [hm]
  unfold find_param_location resolveSpec locUrlQuery locForm locJson
  cases hA : (strHasChar req.path '?' && qsHasKey (afterFirst req.path '?') p)
  case true => simp [hA]
  case false =>
  cases hB : (req.is_form && !(req.body == "") && qsHasKey req.body p)
  case true => simp [hA, hB]
  case false =>
  cases hC : (req.is_json && !(req.body == ""))
  case false => simp [hA, hB, hC, htail]
  case true =>
  cases hL : jsonLoads req.body
  case none => simp [hA, hB, hC, hL, htail]
  case some jv =>
  cases hF : findJP (jsonFuzzFuel req.body) (FJMode.one jv "") p <;>
    simp [hA, hB, hC, hL, hF, htail]

theorem dictMem_eq_isSome (m : List (String × String)) (k : String) :
    dictMem m k = (dictFind m k).isSome := by
  unfold dictMem dictFind
  induction m with
  | nil => rfl
  | cons e rest ih =>
    cases he : (e.1 == k) <;>
      simp [List.any_cons, List.find?_cons_of_pos, List.find?_cons_of_neg, he, ih]

theorem qsHasKey_true_exists (q p : String) (h : qsHasKey q p = true) :
    ∃ seg ∈ qsSegments q, ∃ kv, qsPair seg = some kv ∧ kv.1 = p := by
  unfold qsHasKey parse_qsl at h
  rw [List.any_eq_true] at h
  obtain ⟨kv, hmem, hkv⟩ := h
  rw [List.mem_filterMap] at hmem
  obtain ⟨seg, hseg, hpair⟩ := hmem
  exact ⟨seg, hseg, kv, hpair, by simpa using hkv⟩

theorem findTail_cases (req : ParsedRequest) (p : String) (fl : FuzzLoc)
    (h : findTail req p = some fl) :
    fl = FuzzLoc.header ∨ fl = FuzzLoc.cookie := by
  unfold findTail at h
  split at h
  · exact Or.inl (Option.some.inj h).symm
  · split at h
    · split at h
      · exact Or.inr (Option.some.inj h).symm
      · exact absurd h (by simp)
    · exact absurd h (by simp)

theorem find_url_param_has_query (req : ParsedRequest) (p : String)
    (h : find_param_location req p = some FuzzLoc.url_param) :
    strHasChar req.path '?' = true := by
  unfold find_param_location at h
  split at h
  case isTrue h1 =>
    simp only [Bool.and_eq_true] at h1
    exact h1.1
  case isFalse =>
    split at h
    · exact absurd h (by simp)
    · split at h
      · split at h
        · split at h
          · exact absurd h (by simp)
          · rcases findTail_cases req p _ h with h' | h' <;> simp at h'
        · rcases findTail_cases req p _ h with h' | h' <;> simp at h'
      · rcases findTail_cases req p _ h with h' | h' <;> simp at h'

theorem find_body_param_form (req : ParsedRequest) (p : String)
    (h : find_param_location req p = some FuzzLoc.body_param) :
    req.is_form = true ∧ (req.body == "") = false := by
  unfold find_param_location at h
  split at h
  · exact absurd h (by simp)
  · split at h
    case isTrue h2 =>
      simp only [Bool.and_eq_true] at h2
      exact ⟨h2.1.1, by simpa using h2.1.2⟩
    case isFalse =>
      split at h
      · split at h
        · split at h
          · exact absurd h (by simp)
          · rcases findTail_cases req p _ h with h' | h' <;> simp at h'
        · rcases findTail_cases req p _ h with h' | h' <;> simp at h'
      · rcases findTail_cases req p _ h with h' | h' <;> simp at h'

theorem parse_ct_fields (s : String) (r : ParsedRequest)
    (h : parse_request s = some r) :
    r.is_json = (match dictFind r.headers "Content-Type" with
                 | some v => strContains v "application/json"
                 | Option.none => false) ∧
    r.is_form = (match dictFind r.headers "Content-Type" with
                 | some v => strContains v "application/x-www-form-urlencoded"
                 | Option.none => false) ∧
    r.is_multipart = (match dictFind r.headers "Content-Type" with
                      | some v => strContains v "multipart/form-data"
                      | Option.none => false) ∧
    r.content_type = (dictFind r.headers "Content-Type").getD "" := by
  simp only [parse_request] at h
  split at h
  · have hr := Option.some.inj h
    subst hr
    exact ⟨rfl, rfl, rfl, rfl⟩
  · split at h
    · exact absurd h (by simp)
    · have hr := Option.some.inj h
      subst hr
      exact ⟨rfl, rfl, rfl, rfl⟩

theorem parse_host_shape (s : String) (r : ParsedRequest)
    (h : parse_request s = some r) :
    (match dictFind r.headers "Host" with
     | Option.none => r.host = "" ∧ r.port = Option.none ∧ r.url = ""
     | some hv =>
       hostPort hv = some (r.host, r.port) ∧ r.url = urlOf r.port r.host r.path) := by
  simp only [parse_request] at h
  split at h
  case h_1 hH =>
    have hr := Option.some.inj h
    subst hr
    simp [hH]
  case h_2 hv hH =>
    split at h
    · exact absurd h (by simp)
    case h_2 hpo hP =>
      have hr := Option.some.inj h
      subst hr
      simp [hH, hP]

theorem urlOf_ne_empty (po : Option Int) (h p : String) : urlOf po h p ≠ "" := by
  unfold urlOf
  intro hc
  have hd := congrArg String.data hc
  rw [String.data_append, String.data_append, String.data_append,
    String.data_append] at hd
  rcases List.append_eq_nil.mp hd with ⟨hd1, -⟩
  rcases List.append_eq_nil.mp hd1 with ⟨hd2, -⟩
  rcases List.append_eq_nil.mp hd2 with ⟨hd3, -⟩
  split at hd3 <;> simp at hd3

theorem fuzzSegments_claim_eq (s p : String) :
    fuzzSegments s p = (splitOnChar '&' s).map (fun seg =>
      if strHasChar seg '=' && (beforeFirst seg '=' == p) then
        beforeFirst seg '=' ++ "=FUZZ"
      else seg) := by
  unfold fuzzSegments
  have hfn : ∀ seg : String,
      (if strHasChar seg '=' then
        (if beforeFirst seg '=' == p then beforeFirst seg '=' ++ "=FUZZ" else seg)
      else seg) =
      (if strHasChar seg '=' && (beforeFirst seg '=' == p) then
        beforeFirst seg '=' ++ "=FUZZ"
      else seg) := by
    intro seg
    cases h1 : strHasChar seg '=' <;>
      cases h2 : (beforeFirst seg '=' == p) <;> simp [h1, h2]
  simp only [hfn]

/-- C1: for every parsed request and parameter name, the resolver searches
URL query parameters, then form-urlencoded body parameters (only with
form-urlencoded content type and non-empty body), then JSON body fields
(only with JSON content type and a non-empty body that parses as JSON),
then headers by exact name, then cookies, in that fixed priority order; the
first location containing the parameter determines the returned tag. -/
theorem resolver_priority_order (req : ParsedRequest) (p : String) :
    find_param_location req p = resolveSpec req p :=
  findLoc_spec_eq req p

/-- C2 counterexample: `parse_request` does raise on a `Host` header whose
port suffix is not a valid integer (`int('bad')` propagates `ValueError`),
so it is not total. -/
theorem parse_request_raises_on_bad_port :
    (parse_request "GET / HTTP/1.1\nHost: example.com:bad").isSome = false := by
  decide

/-- C2 amended: `parse_request` terminates normally exactly when any `Host`
header value either contains no `:` or the text between its first and
second `:` parses as a Python integer; every other malformation (bad
request line, header lines without a colon, missing blank line) degrades to
empty or absent fields instead of raising. -/
theorem parse_request_total_iff_host_port_ok (s : String) :
    (parse_request s).isSome = hostPortOk s := by
  simp only [parse_request, hostPortOk]
  cases hH : dictFind (requestHeaderPair s).1 "Host"
  · simp [hH]
  case some hv =>
    cases hP : hostPort hv <;> simp [hH, hP]

/-- C9: a parameter found in none of the five locations resolves to "not
found" (`Option.none`), with every location search total; in particular a
request whose JSON body does not parse (`badJsonReq`) yields not-found
rather than an error. -/
theorem not_found_iff_all_locations_fail :
    (∀ (req : ParsedRequest) (p : String),
      find_param_location req p = Option.none ↔
        (locUrlQuery req p = false ∧ locForm req p = false ∧
         locJson req p = Option.none ∧ locHeader req p = false ∧
         locCookie req p = false)) ∧
    find_param_location badJsonReq "token" = Option.none := by
  constructor
  · intro req p
    rw [findLoc_spec_eq]
    unfold resolveSpec
    cases h1 : locUrlQuery req p <;> cases h2 : locForm req p <;>
      cases h3 : locJson req p <;> cases h4 : locHeader req p <;>
        cases h5 : locCookie req p <;> simp_all
  · decide

/-- C10: when the raw query string carries the parameter only with a blank
value (`p=`), the decoder used for the lookup drops it, so the resolver
reports not-found provided the parameter is in no other location. -/
theorem blank_query_value_not_found (req : ParsedRequest) (p : String)
    (hq : strHasChar req.path '?' = true)
    (hseg : (p ++ "=") ∈ splitOnChar '&' (afterFirst req.path '?'))
    (hblank : ∀ seg ∈ splitOnChar '&' (afterFirst req.path '?'),
      strHasChar seg '=' = true → decodeComponent (beforeFirst seg '=') = p →
        afterFirst seg '=' = "")
    (h2 : locForm req p = false) (h3 : locJson req p = Option.none)
    (h4 : locHeader req p = false) (h5 : locCookie req p = false) :
    find_param_location req p = Option.none := by
  have hkey : qsHasKey (afterFirst req.path '?') p = false := by
    by_contra hc
    rw [Bool.not_eq_false] at hc
    obtain ⟨seg, hsegmem, kv, hpair, hk⟩ := qsHasKey_true_exists _ _ hc
    have hsegs : seg ∈ splitOnChar '&' (afterFirst req.path '?') := by
      unfold qsSegments at hsegmem
      by_cases hq0 : (afterFirst req.path '?' == "") = true
      · rw [if_pos hq0] at hsegmem
        exact absurd hsegmem (List.not_mem_nil seg)
      · rw [if_neg hq0] at hsegmem
        exact hsegmem
    unfold qsPair at hpair
    by_cases e1 : (seg == "") = true
    · rw [if_pos e1] at hpair
      exact absurd hpair (by simp)
    rw [if_neg e1] at hpair
    by_cases e2 : strHasChar seg '=' = true
    · rw [if_pos e2] at hpair
      by_cases e3 : (afterFirst seg '=' == "") = true
      · rw [if_pos e3] at hpair
        exact absurd hpair (by simp)
      · rw [if_neg e3] at hpair
        have hname : decodeComponent (beforeFirst seg '=') = p := by
          have := congrArg Prod.fst (Option.some.inj hpair)
          simpa [hk] using this
        have hv0 := hblank seg hsegs e2 hname
        rw [hv0] at e3
        exact e3 (by rfl)
    · rw [if_neg e2] at hpair
      exact absurd hpair (by simp)
  rw [findLoc_spec_eq]
  unfold resolveSpec
  have h1 : locUrlQuery req p = false := by
    unfold locUrlQuery
    rw [hkey]
    simp
  simp [h1, h2, h3, h4, h5]

/-- C10 witness: concrete request `/a?p=&q=1` with target `p`. -/
theorem blank_query_value_not_found_witness :
    (("p" ++ "=") ∈ splitOnChar '&' (afterFirst blankQueryReq.path '?')) ∧
    find_param_location blankQueryReq "p" = Option.none :=
  ⟨by decide,
   blank_query_value_not_found blankQueryReq "p" (by decide) (by decide)
     (by decide) (by decide) (by decide) (by decide) (by decide)⟩

/-- C3 counterexample: a Content-Type value containing both the JSON and
the form-urlencoded substrings sets both flags, while a single
highest-priority class would set only the JSON flag; the classification is
not a closed first-match-wins value. -/
theorem content_type_flags_overlap :
    (parse_request ctOverlapText).map
      (fun r => (r.is_json, r.is_form, r.is_multipart)) =
      some (true, true, false) ∧
    ctClassFlags (specContentTypeClass (some ctOverlapVal)) =
      (true, false, false) := by
  decide

/-- C3 amended: the parser computes three independent substring flags, not
one closed class; whenever the Content-Type value contains at most one of
the three substrings (in particular always when the header is absent), the
flag triple coincides with the closed-set priority classification
(json before form-urlencoded before multipart, `other`/`none` giving no
flags). -/
theorem content_type_single_class (s : String) (r : ParsedRequest)
    (h : parse_request s = some r)
    (hone : ctAtMostOne (dictFind r.headers "Content-Type") = true) :
    (r.is_json, r.is_form, r.is_multipart) =
      ctClassFlags (specContentTypeClass (dictFind r.headers "Content-Type")) := by
  obtain ⟨h1, h2, h3, -⟩ := parse_ct_fields s r h
  cases hct : dictFind r.headers "Content-Type" with
  | none =>
    rw [hct] at h1 h2 h3
    simp only at h1 h2 h3
    rw [h1, h2, h3]
    rfl
  | some v =>
    rw [hct] at h1 h2 h3 hone
    simp only at h1 h2 h3
    unfold ctAtMostOne at hone
    unfold specContentTypeClass ctClassFlags
    cases ha : strContains v "application/json" <;>
      cases hb : strContains v "application/x-www-form-urlencoded" <;>
        cases hc : strContains v "multipart/form-data" <;>
          simp_all

/-- C3 amended witness: a plain `application/json` request satisfies the
disjointness hypothesis and classifies as json. -/
theorem content_type_single_class_witness :
    ctAtMostOne (dictFind jsonReq.headers "Content-Type") = true ∧
    (jsonReq.is_json, jsonReq.is_form, jsonReq.is_multipart) =
      ctClassFlags (specContentTypeClass
        (dictFind jsonReq.headers "Content-Type")) :=
  ⟨by decide, content_type_single_class jsonReqText jsonReq (by decide) (by decide)⟩

/-- C8 counterexample: for `Host: example.com:0` the port is present and is
neither 80 nor 443, yet the URL carries no `:0` suffix, because the code
tests the port for Python truthiness. -/
theorem port_zero_suffix_dropped :
    (parse_request "GET / HTTP/1.1\nHost: example.com:0").map
      (fun r => (r.port, r.url)) = some (some 0, "http://example.com/") ∧
    strContains "http://example.com/" ":0" = false := by
  decide

/-- C8 amended: `url` is non-empty exactly when a `Host` header is present,
and then it is the inferred scheme (`https` iff the port is 443, else
`http`), `://`, the host, a `:port` suffix exactly when a port is present,
non-zero, and neither 80 nor 443, and the path. -/
theorem url_scheme_port_amended (s : String) (r : ParsedRequest)
    (h : parse_request s = some r) :
    (r.url ≠ "" ↔ dictMem r.headers "Host" = true) ∧
    (dictMem r.headers "Host" = true →
      r.url = (if r.port = some 443 then "https" else "http") ++ "://" ++
        r.host ++
        (match r.port with
         | some n => if n ≠ 0 ∧ n ≠ 80 ∧ n ≠ 443 then ":" ++ toString n else ""
         | Option.none => "") ++ r.path) := by
  have hs := parse_host_shape s r h
  have hmem := dictMem_eq_isSome r.headers "Host"
  cases hH : dictFind r.headers "Host" with
  | none =>
    rw [hH] at hs
    obtain ⟨-, -, hu⟩ := hs
    rw [hH] at hmem
    constructor
    · rw [hu, hmem]
      simp
    · intro hc
      rw [hmem] at hc
      exact absurd hc (by simp)
  | some hv =>
    rw [hH] at hs
    obtain ⟨-, hu⟩ := hs
    rw [hH] at hmem
    have hne : urlOf r.port r.host r.path ≠ "" := urlOf_ne_empty _ _ _
    constructor
    · rw [hu, hmem]
      simp [hne]
    · intro _
      rw [hu]
      rfl

/-- C8 amended witness: the `Host: example.com:8443` request keeps its port
suffix and infers scheme `http`. -/
theorem url_scheme_port_amended_witness :
    (altPortReq.url ≠ "" ↔ dictMem altPortReq.headers "Host" = true) ∧
    (dictMem altPortReq.headers "Host" = true →
      altPortReq.url = (if altPortReq.port = some 443 then "https" else "http") ++
        "://" ++ altPortReq.host ++
        (match altPortReq.port with
         | some n => if n ≠ 0 ∧ n ≠ 80 ∧ n ≠ 443 then ":" ++ toString n else ""
         | Option.none => "") ++ altPortReq.path) :=
  url_scheme_port_amended "GET /admin HTTP/1.1\nHost: example.com:8443"
    altPortReq (by decide)

/-- C4: when the resolved target is the URL query parameter, the `-u` flag
is the base URL (`request.url` up to its own `?`), then the path portion
before `?`, then `?`, then the raw query re-split on `&` with each
`name=value` segment whose name equals the target rewritten to `name=FUZZ`
and every other segment (including malformed ones without `=`) untouched in
order; the full command is wordlist flag, method flag, that URL flag, the
header flags, and the body flags; and for query `q=test&id=5` with target
`id` the rebuilt query is `q=test&id=FUZZ`. -/
theorem url_query_fuzz_rewrite (req : ParsedRequest) (p w : String)
    (hfind : find_param_location req p = some FuzzLoc.url_param) :
    urlFlag req p FuzzLoc.url_param =
      some ("-u \"" ++ beforeFirst req.url '?' ++ beforeFirst req.path '?' ++
        "?" ++
        String.intercalate "&" ((splitOnChar '&' (afterFirst req.path '?')).map
          (fun seg =>
            if strHasChar seg '=' && (beforeFirst seg '=' == p) then
              beforeFirst seg '=' ++ "=FUZZ"
            else seg)) ++ "\"") ∧
    generate_ffuf_command req p w (some FuzzLoc.url_param) =
      some (String.intercalate " "
        (("ffuf -w " ++ w) :: ("-X " ++ req.method) ::
          ("-u \"" ++ beforeFirst req.url '?' ++ beforeFirst req.path '?' ++
            "?" ++ String.intercalate "&" (fuzzSegments (afterFirst req.path '?') p) ++
            "\"") ::
          (req.headers.map (headerFlag p FuzzLoc.url_param) ++
            bodyFlags req FuzzLoc.url_param))) ∧
    String.intercalate "&" (fuzzSegments "q=test&id=5" "id") = "q=test&id=FUZZ" := by
  have hq := find_url_param_has_query req p hfind
  have hflag : urlFlag req p FuzzLoc.url_param =
      some ("-u \"" ++ beforeFirst req.url '?' ++ beforeFirst req.path '?' ++
        "?" ++ String.intercalate "&" (fuzzSegments (afterFirst req.path '?') p) ++
        "\"") := by
    unfold urlFlag
    rw [hq]
    rfl
  refine ⟨?_, ?_, by decide⟩
  · rw [hflag, fuzzSegments_claim_eq]
  · simp [generate_ffuf_command, hflag]

set_option maxRecDepth 4000 in
/-- C4 witness: the spec's `/search?q=test&id=5` request with target `id`. -/
theorem url_query_fuzz_rewrite_witness :
    find_param_location urlReq "id" = some FuzzLoc.url_param ∧
    (urlFlag urlReq "id" FuzzLoc.url_param =
      some ("-u \"" ++ beforeFirst urlReq.url '?' ++ beforeFirst urlReq.path '?' ++
        "?" ++
        String.intercalate "&" ((splitOnChar '&' (afterFirst urlReq.path '?')).map
          (fun seg =>
            if strHasChar seg '=' && (beforeFirst seg '=' == "id") then
              beforeFirst seg '=' ++ "=FUZZ"
            else seg)) ++ "\"") ∧
    generate_ffuf_command urlReq "id" "w.txt" (some FuzzLoc.url_param) =
      some (String.intercalate " "
        (("ffuf -w " ++ "w.txt") :: ("-X " ++ urlReq.method) ::
          ("-u \"" ++ beforeFirst urlReq.url '?' ++ beforeFirst urlReq.path '?' ++
            "?" ++
            String.intercalate "&" (fuzzSegments (afterFirst urlReq.path '?') "id") ++
            "\"") ::
          (urlReq.headers.map (headerFlag "id" FuzzLoc.url_param) ++
            bodyFlags urlReq FuzzLoc.url_param))) ∧
    String.intercalate "&" (fuzzSegments "q=test&id=5" "id") = "q=test&id=FUZZ") :=
  ⟨by decide, url_query_fuzz_rewrite urlReq "id" "w.txt" (by decide)⟩

set_option maxRecDepth 100000 in
/-- C5: on the spec's JSON request the resolver returns the `json_field`
tag with recorded path `user.id`, and the generated command carries the
original JSON body as the `-d` payload followed by `-mode pitchfork` and
the path flag `-json 'user.id:FUZZ'`. -/
theorem json_field_example_command :
    (parse_request jsonReqText).map (fun r => find_param_location r "id") =
      some (some (FuzzLoc.json_field "user.id")) ∧
    (parse_request jsonReqText).bind
      (fun r => generate_ffuf_command r "id" "wordlist.txt"
        (find_param_location r "id")) =
      some ("ffuf -w wordlist.txt -X POST -u \"http://example.com/api\" -H \"Host: example.com\" -H \"Content-Type: application/json\" -d '\x7b\"user\":\x7b\"id\":42\x7d\x7d' -mode pitchfork -json 'user.id:FUZZ'") := by
  decide

/-- C6: with header `Cookie: session=abc123; theme=dark` and target
`session` not found in any earlier-priority location, the resolver returns
the cookie tag, and the rebuilt Cookie header value — split on `;`, the
segment whose stripped name is `session` rewritten to `session=FUZZ`,
rejoined with `; ` — is exactly `session=FUZZ; theme=dark`. -/
theorem cookie_resolution_and_rewrite (req : ParsedRequest)
    (hck : dictFind req.headers "Cookie" = some "session=abc123; theme=dark")
    (h1 : locUrlQuery req "session" = false)
    (h2 : locForm req "session" = false)
    (h3 : locJson req "session" = Option.none)
    (h4 : locHeader req "session" = false) :
    find_param_location req "session" = some FuzzLoc.cookie ∧
    rebuildCookieValue "session=abc123; theme=dark" "session" =
      "session=FUZZ; theme=dark" ∧
    headerFlag "session" FuzzLoc.cookie
      ("Cookie", "session=abc123; theme=dark") =
      "-H \"Cookie: session=FUZZ; theme=dark\"" := by
  refine ⟨?_, by decide, by decide⟩
  rw [findLoc_spec_eq]
  unfold resolveSpec
  have h5 : locCookie req "session" = true := by
    unfold locCookie
    rw [hck]
    decide
  simp [h1, h2, h3, h4, h5]

/-- C6 witness: a concrete request carrying exactly that cookie header. -/
theorem cookie_resolution_and_rewrite_witness :
    dictFind cookieReq.headers "Cookie" = some "session=abc123; theme=dark" ∧
    (find_param_location cookieReq "session" = some FuzzLoc.cookie ∧
     rebuildCookieValue "session=abc123; theme=dark" "session" =
       "session=FUZZ; theme=dark" ∧
     headerFlag "session" FuzzLoc.cookie
       ("Cookie", "session=abc123; theme=dark") =
       "-H \"Cookie: session=FUZZ; theme=dark\"") :=
  ⟨by decide,
   cookie_resolution_and_rewrite cookieReq (by decide) (by decide) (by decide)
     (by decide) (by decide)⟩

/-- C7: when the resolved target is the form-body parameter and the body
flag is emitted (non-empty body, method POST, PUT, or PATCH), the `-d`
payload is exactly the original request body; the `FUZZ` substitution of
`fuzzSegments` is never applied to it. -/
theorem form_body_payload_unmodified (req : ParsedRequest) (p w : String)
    (hfind : find_param_location req p = some FuzzLoc.body_param)
    (hm : req.method = "POST" ∨ req.method = "PUT" ∨ req.method = "PATCH") :
    bodyFlags req FuzzLoc.body_param = ["-d \"" ++ req.body ++ "\""] ∧
    generate_ffuf_command req p w (some FuzzLoc.body_param) =
      some (String.intercalate " "
        (("ffuf -w " ++ w) :: ("-X " ++ req.method) ::
          ("-u \"" ++ req.url ++ "\"") ::
          (req.headers.map (headerFlag p FuzzLoc.body_param) ++
            ["-d \"" ++ req.body ++ "\""]))) := by
  obtain ⟨hform, hbody⟩ := find_body_param_form req p hfind
  have hcond : (!(req.body == "") &&
      (req.method == "POST" || req.method == "PUT" || req.method == "PATCH")) =
      true := by
    rw [hbody]
    rcases hm with h | h | h <;> simp [h]
  have hflags : bodyFlags req FuzzLoc.body_param = ["-d \"" ++ req.body ++ "\""] := by
    unfold bodyFlags
    rw [hcond]
    simp [hform]
  refine ⟨hflags, ?_⟩
  simp [generate_ffuf_command, urlFlag, hflags]

/-- C7 witness: the form POST request with target `pass`. -/
theorem form_body_payload_unmodified_witness :
    find_param_location formReq "pass" = some FuzzLoc.body_param ∧
    (bodyFlags formReq FuzzLoc.body_param = ["-d \"" ++ formReq.body ++ "\""] ∧
     generate_ffuf_command formReq "pass" "w.txt" (some FuzzLoc.body_param) =
       some (String.intercalate " "
         (("ffuf -w " ++ "w.txt") :: ("-X " ++ formReq.method) ::
           ("-u \"" ++ formReq.url ++ "\"") ::
           (formReq.headers.map (headerFlag "pass" FuzzLoc.body_param) ++
             ["-d \"" ++ formReq.body ++ "\""])))) :=
  ⟨by decide,
   form_body_payload_unmodified formReq "pass" "w.txt" (by decide) (Or.inl rfl)⟩
